import Mathlib

/-!
Shallow embedding of the order finalization and inventory reservation engine
of the earthco storefront backend (Express + Prisma), together with theorems
about its claims: stock reservation, order finalization idempotence,
compensation, order-code retry, shipping policy, order totals and admin
product deletion.

Database rows are modelled as Lean structures, tables as lists of rows, and
each Prisma query as a pure function on the table lists. A Prisma
interactive transaction is a function from the database state to a new
database state together with a result; a thrown error rolls the transaction
back, so the error case returns the original state.
-/

namespace EarthCo

/-- Order lifecycle status, from the Prisma OrderStatus enum. -/
inductive OrderStatus where
  | PENDING_PAYMENT
  | PLACED
  | FULFILLED
  | CANCELLED
deriving DecidableEq, Repr

/-- A Product row: id, name, price (integer currency units) and stock on hand. -/
structure Product where
  id : Nat
  name : String
  price : Int
  stock : Int
deriving DecidableEq, Repr

/-- An OrderLine row: product reference plus name/price snapshotted at creation. -/
structure OrderLine where
  productId : Nat
  productName : String
  unitPrice : Int
  quantity : Int
deriving DecidableEq, Repr

/-- An Order row with its included lines. -/
structure Order where
  id : Nat
  userId : String
  orderCode : String
  status : OrderStatus
  subtotal : Int
  shipping : Int
  total : Int
  shippingFullName : String
  shippingEmail : String
  shippingAddress : String
  shippingCity : String
  shippingZip : String
  shippingCountry : String
  stripeSessionId : Option String
  lines : List OrderLine
deriving DecidableEq, Repr

/-- A CartItem row: owner, product reference and quantity. -/
structure CartItem where
  userId : String
  productId : Nat
  quantity : Int
deriving DecidableEq, Repr

/-- The database state: the tables the engine touches. -/
structure DB where
  products : List Product
  orders : List Order
  cartItems : List CartItem
deriving DecidableEq, Repr

/-- HttpError from src/server/src/lib/httpError.ts: an HTTP status and message. -/
structure HttpError where
  status : Nat
  message : String
deriving DecidableEq, Repr

/-- computeShipping from src/server/src/lib/orders.ts:
subtotal greater than 250 or equal to 0 ships free, otherwise a flat 12. -/
def computeShipping (subtotal : Int) : Int :=
  if subtotal > 250 || subtotal == 0 then 0 else 12

/-! ## Stock ledger: the conditional decrement -/

/-- The where-clause of the conditional stock decrement:
row id equals the product id and stock is at least the quantity. -/
def reserveMatches (productId : Nat) (quantity : Int) (p : Product) : Bool :=
  p.id == productId && quantity ≤ p.stock

/-- The row update of the conditional decrement: decrement stock on a row
matching the guard, leave any other row alone. -/
def applyReserve (productId : Nat) (quantity : Int) (p : Product) : Product :=
  if reserveMatches productId quantity p then
    { p with stock := p.stock - quantity }
  else p

/-- product.updateMany with a stock-gte guard: decrement stock by quantity on
every row matching the guard; the affected-row count is the success signal,
none means zero rows matched (the business out-of-stock condition). -/
def reserveStock (products : List Product) (productId : Nat) (quantity : Int) :
    Option (List Product) :=
  if products.countP (reserveMatches productId quantity) = 0 then none
  else some (products.map (applyReserve productId quantity))

/-- The stock of the first row with the given id, as findUnique would read it. -/
def stockOf (products : List Product) (productId : Nat) : Option Int :=
  (products.find? (fun p => p.id == productId)).map Product.stock

/-- The decrement loop shared by finalization and immediate checkout: reserve
each line in order; the first failing line aborts with an out-of-stock
HttpError (status 409 in finalization, 400 in checkout) naming the snapshotted
product name. -/
def reserveLines (status : Nat) (products : List Product) :
    List OrderLine → Except HttpError (List Product)
  | [] => .ok products
  | line :: rest =>
    match reserveStock products line.productId line.quantity with
    | none => .error ⟨status, line.productName ++ " is out of stock."⟩
    | some products2 => reserveLines status products2 rest

/-- Run a sequence of reservation attempts (productId, quantity) against the
product table: a failed attempt aborts its enclosing transaction and leaves
the table unchanged, a successful attempt commits its decrement. -/
def runReservations (products : List Product) : List (Nat × Int) → List Product
  | [] => products
  | (productId, quantity) :: rest =>
    match reserveStock products productId quantity with
    | none => runReservations products rest
    | some products2 => runReservations products2 rest

/-- The total quantity a sequence of reservation attempts successfully
reserves for one product. -/
def reservedFor (products : List Product) (productId : Nat) :
    List (Nat × Int) → Int
  | [] => 0
  | (pid2, quantity) :: rest =>
    match reserveStock products pid2 quantity with
    | none => reservedFor products productId rest
    | some products2 =>
      (if pid2 = productId then quantity else 0)
        + reservedFor products2 productId rest

/-! ## Finalization state machine (finalizeStripeOrder in src/server/src/routes/stripe.ts)

The transaction body is split into the two atomic phases the spec identifies:
the read phase (findUnique by session, owner check and the absorbing-state
short-circuit) and the claim-and-act phase (the conditional status update,
the stock decrement loop, the cart clear and the final re-read). Under
read-committed isolation, a concurrent finalization for the same session can
interleave between the two phases, which is exactly the window the
conditional claim guards; the claim-and-act phase itself holds the row lock
taken by the conditional update until commit, so it is modelled as atomic. -/

/-- findUnique on Order by stripeSessionId. -/
def findOrderBySession (orders : List Order) (sessionId : String) : Option Order :=
  orders.find? (fun o => o.stripeSessionId == some sessionId)

/-- findUnique on Order by id. -/
def findOrderById (orders : List Order) (orderId : Nat) : Option Order :=
  orders.find? (fun o => o.id == orderId)

/-- The guard userId && existingOrder.userId !== userId: an expected owner was
supplied and does not match the order. -/
def ownerMismatch (userId : Option String) (o : Order) : Bool :=
  match userId with
  | some u => !(o.userId == u)
  | none => false

/-- The where-clause of the finalization claim: id matches and status is
still PENDING_PAYMENT. -/
def pendingMatches (orderId : Nat) (o : Order) : Bool :=
  o.id == orderId && o.status == OrderStatus.PENDING_PAYMENT

/-- The row update of the finalization claim: set a matching row to PLACED,
leave any other row alone. -/
def applyPlace (orderId : Nat) (o : Order) : Order :=
  if pendingMatches orderId o then { o with status := OrderStatus.PLACED } else o

/-- How many rows the finalization claim would affect. -/
def countPendingById (orders : List Order) (orderId : Nat) : Nat :=
  orders.countP (pendingMatches orderId)

/-- order.updateMany setting status to PLACED where id matches and status is
still PENDING_PAYMENT; returns the updated table and the affected-row count. -/
def setOrderPlacedIfPending (orders : List Order) (orderId : Nat) :
    List Order × Nat :=
  (orders.map (applyPlace orderId), countPendingById orders orderId)

/-- cartItem.deleteMany for one owner. -/
def clearCartOf (items : List CartItem) (userId : String) : List CartItem :=
  items.filter fun it => !(it.userId == userId)

/-- The 404 thrown when no order matches the session or the owner differs. -/
def noOrderErr : HttpError :=
  ⟨404, "No order found for this Stripe session."⟩

/-- Read phase of finalizeStripeOrder: load the order by session id, fail with
the 404 when absent or owned by someone else, short-circuit when the status is
already PLACED, FULFILLED or CANCELLED, otherwise hand the snapshot on to the
claim phase. It performs no write. -/
def readPhase (db : DB) (sessionId : String) (userId : Option String) :
    Except HttpError Order ⊕ Order :=
  match findOrderBySession db.orders sessionId with
  | none => .inl (.error noOrderErr)
  | some existingOrder =>
    if ownerMismatch userId existingOrder then .inl (.error noOrderErr)
    else if existingOrder.status == OrderStatus.PLACED
        || existingOrder.status == OrderStatus.FULFILLED then
      .inl (.ok existingOrder)
    else if existingOrder.status == OrderStatus.CANCELLED then
      .inl (.ok existingOrder)
    else .inr existingOrder

/-- Claim-and-act phase of finalizeStripeOrder, given the snapshot read
earlier: the conditional PENDING_PAYMENT to PLACED update; on zero affected
rows re-read and return the current order unchanged; on a won claim run the
stock decrement loop over the snapshot lines (a failure throws 409 and rolls
the whole transaction back), clear the owner cart and re-read the finalized
order. The first component of the result is the committed database state;
on any thrown error it is the input state (transaction rollback). -/
def claimAndAct (db : DB) (snap : Order) : DB × Except HttpError Order :=
  let updated := setOrderPlacedIfPending db.orders snap.id
  if updated.2 = 0 then
    match findOrderById db.orders snap.id with
    | none => (db, .error noOrderErr)
    | some latest => (db, .ok latest)
  else
    match reserveLines 409 db.products snap.lines with
    | .error e => (db, .error e)
    | .ok products2 =>
      let db2 : DB :=
        { products := products2
          orders := updated.1
          cartItems := clearCartOf db.cartItems snap.userId }
      match findOrderById db2.orders snap.id with
      | none => (db, .error noOrderErr)
      | some finalized => (db2, .ok finalized)

/-- finalizeStripeOrder: the whole transaction run without interference
between its two phases. -/
def finalizeStripeOrder (db : DB) (sessionId : String) (userId : Option String) :
    DB × Except HttpError Order :=
  match readPhase db sessionId userId with
  | .inl r => (db, r)
  | .inr snap => claimAndAct db snap

/-! ### Interleaved finalizations for the same order

A trace interleaves the claim-and-act phases of any number of finalization
invocations, each with the snapshot its own read phase captured (the read
phase writes nothing, so only claim phases appear in the state fold). -/

/-- Whether a claim-and-act phase run against the given state actually
reserves stock and commits: its conditional update affects at least one row
and every line decrement succeeds. -/
def reservesStock (db : DB) (snap : Order) : Bool :=
  decide ((setOrderPlacedIfPending db.orders snap.id).2 ≠ 0)
    && (reserveLines 409 db.products snap.lines).toBool

/-- Run the claim-and-act phases of a list of invocations in interleaving
order, threading the committed database state. -/
def runClaims (db : DB) : List Order → DB
  | [] => db
  | snap :: rest => runClaims (claimAndAct db snap).1 rest

/-- How many of the interleaved claim phases reserve stock and commit. -/
def reservationsCount (db : DB) : List Order → Nat
  | [] => 0
  | snap :: rest =>
    (if reservesStock db snap then 1 else 0)
      + reservationsCount (claimAndAct db snap).1 rest

/-! ## Compensator (compensateStripeFulfillmentFailure) -/

/-- The Stripe checkout session fields the compensator consults. -/
structure StripeSession where
  id : String
  paymentIntent : Option String
deriving DecidableEq, Repr

/-- A refund request sent to stripe.refunds.create. -/
structure Refund where
  paymentIntent : String
  reason : String
  idempotencyKey : String
deriving DecidableEq, Repr

/-- The audit record emitted at the end of compensation. -/
structure AuditRecord where
  event : String
  sessionId : String
  orderId : Option Nat
  hadPaymentIntent : Bool
deriving DecidableEq, Repr

/-- The row update of the compensating cancellation: set a row whose session
matches and whose status is still PENDING_PAYMENT to CANCELLED, leave any
other row alone. -/
def applyCancel (sessionId : String) (o : Order) : Order :=
  if o.stripeSessionId == some sessionId
      && o.status == OrderStatus.PENDING_PAYMENT then
    { o with status := OrderStatus.CANCELLED }
  else o

/-- order.updateMany setting status to CANCELLED where the session matches and
the status is still PENDING_PAYMENT. -/
def setOrderCancelledIfPending (orders : List Order) (sessionId : String) :
    List Order :=
  orders.map (applyCancel sessionId)

/-- compensateStripeFulfillmentFailure: refund the payment intent when the
session carries one (tagged with the earthco-refund idempotency key), then
conditionally cancel the order while it is still PENDING_PAYMENT, and emit the
audit record in every case. Returns the new state, the refund calls issued
and the audit record. -/
def compensateStripeFulfillmentFailure (db : DB) (session : StripeSession) :
    DB × List Refund × AuditRecord :=
  ({ db with orders := setOrderCancelledIfPending db.orders session.id },
   (match session.paymentIntent with
    | some intentId =>
      [⟨intentId, "requested_by_customer", "earthco-refund-" ++ session.id⟩]
    | none => []),
   ⟨"stripe.order_cancelled_after_failed_fulfillment", session.id,
    (findOrderBySession db.orders session.id).map Order.id,
    session.paymentIntent.isSome⟩)

/-- The status of the order for a session, as the next reader would see it. -/
def statusOfSession (db : DB) (sessionId : String) : Option OrderStatus :=
  (findOrderBySession db.orders sessionId).map Order.status

/-! ## Order code generation retry (createOrderWithRetry in src/server/src/lib/orders.ts) -/

/-- ORDER_CODE_MAX_ATTEMPTS. -/
def ORDER_CODE_MAX_ATTEMPTS : Nat := 5

/-- An error thrown by tx.order.create: either a PrismaClientKnownRequestError
with its code and optional meta.target array, or any other thrown value. -/
inductive DbError where
  | known (code : String) (target : Option (List String))
  | other (message : String)
deriving DecidableEq, Repr

/-- isOrderCodeConflict: a PrismaClientKnownRequestError with code P2002 whose
meta.target is an array containing orderCode. -/
def isOrderCodeConflict : DbError → Bool
  | .known code target =>
    code == "P2002"
      && (match target with
          | some fields => fields.contains "orderCode"
          | none => false)
  | .other _ => false

/-- The outcome of one tx.order.create attempt, supplied by the environment
(the database decides whether the freshly generated code collides). -/
inductive InsertOutcome where
  | ok (o : Order)
  | err (e : DbError)
deriving DecidableEq, Repr

/-- What createOrderWithRetry throws or returns: the created order with the
number of generation attempts consumed, or a propagated database error, or
the fallback HttpError 500. -/
inductive RetryResult where
  | ok (attemptsUsed : Nat) (o : Order)
  | raisedDb (e : DbError)
  | raisedHttp (e : HttpError)
deriving DecidableEq, Repr

/-- The for-loop of createOrderWithRetry: fuel counts the remaining loop
iterations (attempt + fuel = ORDER_CODE_MAX_ATTEMPTS at every call from the
top level). A successful insert returns; an orderCode conflict before the
last attempt records the error and continues; any other error, or a conflict
on the last attempt, is rethrown. Falling off the loop rethrows the recorded
error when it is an Error instance, else the fallback HttpError. -/
def createOrderGo (outcomes : Nat → InsertOutcome) :
    Nat → Nat → Option DbError → RetryResult
  | _, 0, lastError =>
    match lastError with
    | some e => .raisedDb e
    | none => .raisedHttp ⟨500, "Unable to generate a unique order code."⟩
  | attempt, fuel + 1, _ =>
    match outcomes attempt with
    | .ok o => .ok (attempt + 1) o
    | .err e =>
      if isOrderCodeConflict e && decide (attempt < ORDER_CODE_MAX_ATTEMPTS - 1) then
        createOrderGo outcomes (attempt + 1) fuel (some e)
      else
        .raisedDb e

/-- createOrderWithRetry, abstracted over the per-attempt insert outcomes. -/
def createOrderWithRetry (outcomes : Nat → InsertOutcome) : RetryResult :=
  createOrderGo outcomes 0 ORDER_CODE_MAX_ATTEMPTS none

/-! ## Checkout orchestrators -/

/-- The validated, trimmed shipping payload of a checkout request. -/
structure ShippingInfo where
  fullName : String
  email : String
  address : String
  city : String
  zip : String
  country : String
deriving DecidableEq, Repr

/-- cartItem.findMany with include product, for one owner: each cart item is
joined to its product row; none when some referenced product row is missing
(impossible under the foreign-key constraint). -/
def joinCart (db : DB) (userId : String) : Option (List (CartItem × Product)) :=
  (db.cartItems.filter fun it => it.userId == userId).mapM fun it =>
    (db.products.find? (fun p => p.id == it.productId)).map fun p => (it, p)

/-- The subtotal reduce: sum of product price times quantity over the cart. -/
def cartSubtotal (cart : List (CartItem × Product)) : Int :=
  cart.foldl (fun sum ip => sum + ip.2.price * ip.1.quantity) 0

/-- The lines.create payload: one OrderLine per cart item, snapshotting the
product name and price and copying the cart quantity. -/
def linesOfCart (cart : List (CartItem × Product)) : List OrderLine :=
  cart.map fun ip =>
    { productId := ip.1.productId
      productName := ip.2.name
      unitPrice := ip.2.price
      quantity := ip.1.quantity }

/-- The fail-fast pre-check: the first cart line whose product stock is below
the requested quantity, if any. -/
def firstInsufficient (cart : List (CartItem × Product)) :
    Option (CartItem × Product) :=
  cart.find? fun ip => decide (ip.2.stock < ip.1.quantity)

/-- POST /api/orders/checkout (immediate path): inside one transaction, load
the cart with products, fail on an empty cart, fail fast on any line whose
stock is short, compute subtotal, shipping and total, conditionally decrement
stock per line (any failure aborts the transaction), create the order with
snapshotted lines, and delete the owner cart items. The order id, order code
and the schema default status are parameters of the model (the code leaves
the status to the Prisma schema default). A thrown error returns the input
state unchanged (rollback). -/
def checkoutImmediate (db : DB) (userId : String) (info : ShippingInfo)
    (newOrderId : Nat) (orderCode : String) (defaultStatus : OrderStatus) :
    DB × Except HttpError Order :=
  match joinCart db userId with
  | none => (db, .error ⟨500, "missing product row"⟩)
  | some cart =>
    if cart.isEmpty then (db, .error ⟨400, "Your cart is empty."⟩)
    else
      match firstInsufficient cart with
      | some ip => (db, .error ⟨400, ip.2.name ++ " has insufficient stock."⟩)
      | none =>
        let subtotal := cartSubtotal cart
        let shipping := computeShipping subtotal
        let total := subtotal + shipping
        match reserveLines 400 db.products (linesOfCart cart) with
        | .error e => (db, .error e)
        | .ok products2 =>
          let createdOrder : Order :=
            { id := newOrderId
              userId := userId
              orderCode := orderCode
              status := defaultStatus
              subtotal := subtotal
              shipping := shipping
              total := total
              shippingFullName := info.fullName.trim
              shippingEmail := info.email.trim
              shippingAddress := info.address.trim
              shippingCity := info.city.trim
              shippingZip := info.zip.trim
              shippingCountry := info.country.trim
              stripeSessionId := none
              lines := linesOfCart cart }
          ({ products := products2
             orders := createdOrder :: db.orders
             cartItems := clearCartOf db.cartItems userId },
           .ok createdOrder)

/-- POST /api/stripe/checkout-session (deferred path): identical cart load,
empty-cart and insufficient-stock checks and totals, but no stock decrement
and no cart clear; the order is created with status PENDING_PAYMENT and the
Stripe session id, after the external session has been created. -/
def checkoutSession (db : DB) (userId : String) (info : ShippingInfo)
    (sessionId : String) (newOrderId : Nat) (orderCode : String) :
    DB × Except HttpError Order :=
  match joinCart db userId with
  | none => (db, .error ⟨500, "missing product row"⟩)
  | some cart =>
    if cart.isEmpty then (db, .error ⟨400, "Your cart is empty."⟩)
    else
      match firstInsufficient cart with
      | some ip => (db, .error ⟨400, ip.2.name ++ " has insufficient stock."⟩)
      | none =>
        let subtotal := cartSubtotal cart
        let shipping := computeShipping subtotal
        let total := subtotal + shipping
        let createdOrder : Order :=
          { id := newOrderId
            userId := userId
            orderCode := orderCode
            status := OrderStatus.PENDING_PAYMENT
            subtotal := subtotal
            shipping := shipping
            total := total
            shippingFullName := info.fullName.trim
            shippingEmail := info.email.trim
            shippingAddress := info.address.trim
            shippingCity := info.city.trim
            shippingZip := info.zip.trim
            shippingCountry := info.country.trim
            stripeSessionId := some sessionId
            lines := linesOfCart cart }
        ({ db with orders := createdOrder :: db.orders }, .ok createdOrder)

/-! ## Admin product deletion (DELETE /products/:id in src/server/src/routes/admin.ts) -/

/-- The response of the delete handler. -/
inductive DeleteResult where
  | conflict
  | deleted
  | missing
deriving DecidableEq, Repr

/-- orderLine.count where productId matches, across all orders. -/
def orderLineCountFor (db : DB) (productId : Nat) : Nat :=
  (db.orders.map fun o => o.lines.countP fun l => l.productId == productId).sum

/-- DELETE /products/:id: refuse with 409 when any order line references the
product; otherwise delete every cart item referencing it and then the product
itself, answering 404 (P2025) when no such product exists. -/
def deleteProduct (db : DB) (productId : Nat) : DB × DeleteResult :=
  if orderLineCountFor db productId ≠ 0 then (db, .conflict)
  else
    let db1 : DB :=
      { db with cartItems := db.cartItems.filter fun it => !(it.productId == productId) }
    if (db1.products.find? fun p => p.id == productId).isSome then
      ({ db1 with products := db1.products.filter fun p => !(p.id == productId) },
       .deleted)
    else (db1, .missing)

/-! ## Concrete fixtures used by the witness theorems -/

/-- A product with ample stock. -/
def prodA : Product := ⟨1, "Mug", 40, 5⟩

/-- A product with a single unit in stock. -/
def prodB : Product := ⟨2, "Tote", 30, 1⟩

/-- A line reserving two units of prodA. -/
def lineA : OrderLine := ⟨1, "Mug", 40, 2⟩

/-- A line reserving more of prodB than its stock holds. -/
def lineOver : OrderLine := ⟨2, "Tote", 30, 3⟩

/-- The shipping payload used by the checkout witnesses. -/
def infoW : ShippingInfo := ⟨"Alice A", "alice@example.com", "1 Way", "Town", "99999", "US"⟩

/-- A deferred order still awaiting payment for session sess1. -/
def pendingOrder : Order :=
  ⟨10, "alice", "EC-AAAA", OrderStatus.PENDING_PAYMENT, 80, 12, 92,
   "Alice A", "alice@example.com", "1 Way", "Town", "99999", "US",
   some "sess1", [lineA]⟩

/-- A deferred order whose only line cannot be covered by stock. -/
def pendingOverOrder : Order :=
  ⟨11, "alice", "EC-BBBB", OrderStatus.PENDING_PAYMENT, 90, 12, 102,
   "Alice A", "alice@example.com", "1 Way", "Town", "99999", "US",
   some "sess9", [lineOver]⟩

/-- An already-placed order for session sess2. -/
def placedOrder : Order :=
  ⟨12, "alice", "EC-CCCC", OrderStatus.PLACED, 80, 12, 92,
   "Alice A", "alice@example.com", "1 Way", "Town", "99999", "US",
   some "sess2", [lineA]⟩

/-- A database holding the pending orders and a cart for alice. -/
def dbPending : DB :=
  ⟨[prodA, prodB], [pendingOrder, pendingOverOrder, placedOrder],
   [⟨"alice", 1, 2⟩, ⟨"bob", 2, 1⟩]⟩

/-- The empty database. -/
def emptyDB : DB := ⟨[], [], []⟩

/-- A Prisma P2002 uniqueness violation on the orderCode field. -/
def conflictW : DbError := .known "P2002" (some ["orderCode"])

/-- Insert outcomes that collide twice, then succeed. -/
def outcomesW : Nat → InsertOutcome :=
  fun i => if i < 2 then .err conflictW else .ok pendingOrder

/-! ## Helper lemmas -/

/-- find? commutes with a map whose function preserves the predicate and
fixes every element the predicate rejects... more precisely, with any
predicate-preserving function. -/
theorem find?_map_pred {α : Type} (f : α → α) (p : α → Bool)
    (hf : ∀ a, p (f a) = p a) :
    ∀ l : List α, (l.map f).find? p = (l.find? p).map f := by
  intro l
  induction l with
  | nil => rfl
  | cons a l ih =>
    simp only [List.map_cons, List.find?]
    rw [hf a]
    cases hpa : p a
    · simpa using ih
    · rfl

/-- Folding addition of a projection equals the initial value plus the sum of
the mapped list. -/
theorem foldl_add_map {α : Type} (g : α → Int) :
    ∀ (l : List α) (init : Int),
      l.foldl (fun sum x => sum + g x) init = init + (l.map g).sum := by
  intro l
  induction l with
  | nil => intro init; simp
  | cons a l ih =>
    intro init
    simp only [List.foldl_cons, List.map_cons, List.sum_cons]
    rw [ih]
    ring

/-! ## Stock ledger lemmas -/

/-- The conditional row update never changes a row id. -/
theorem applyReserve_id (productId : Nat) (quantity : Int) (p : Product) :
    (applyReserve productId quantity p).id = p.id := by
  unfold applyReserve
  split <;> rfl

/-- A successful conditional decrement means some row matched the guard, and
the new table is the pointwise update of the old. -/
theorem reserveStock_some {ps : List Product} {productId : Nat} {q : Int}
    {ps2 : List Product} (h : reserveStock ps productId q = some ps2) :
    ps.countP (reserveMatches productId q) ≠ 0
      ∧ ps2 = ps.map (applyReserve productId q) := by
  unfold reserveStock at h
  split at h
  · exact absurd h (by simp)
  · exact ⟨by assumption, (Option.some.inj h).symm⟩

/-- Reading a product whose id differs from the one a successful decrement
touched sees an unchanged stock. -/
theorem stockOf_map_applyReserve_ne {ps : List Product} {pid2 productId : Nat}
    {q : Int} (hne : pid2 ≠ productId) :
    stockOf (ps.map (applyReserve pid2 q)) productId = stockOf ps productId := by
  unfold stockOf
  rw [find?_map_pred (applyReserve pid2 q) (fun p => p.id == productId)
    (fun a => by simp only [applyReserve_id])]
  cases hf : ps.find? (fun p => p.id == productId) with
  | none => rfl
  | some y =>
    have hy : y.id = productId := by
      have := List.find?_some hf
      rwa [beq_iff_eq] at this
    have hm : reserveMatches pid2 q y = false := by
      unfold reserveMatches
      rw [hy]
      simp [Ne.symm hne]
    simp only [Option.map]
    unfold applyReserve
    rw [hm]
    simp

/-- With unique product ids, a successful conditional decrement of q found a
stock of at least q and left exactly that stock minus q behind. -/
theorem reserveStock_success_enough {ps : List Product} {productId : Nat}
    {q : Int} {ps2 : List Product}
    (hnd : (ps.map Product.id).Nodup)
    (h : reserveStock ps productId q = some ps2) :
    ∃ s, stockOf ps productId = some s ∧ q ≤ s
      ∧ stockOf ps2 productId = some (s - q) := by
  obtain ⟨hcnt, rfl⟩ := reserveStock_some h
  have hx : ∃ x ∈ ps, reserveMatches productId q x = true := by
    by_contra hno
    push_neg at hno
    exact hcnt (List.countP_eq_zero.mpr (by simpa using hno))
  obtain ⟨x, hx_mem, hx_match⟩ := hx
  have hx_parts : x.id = productId ∧ q ≤ x.stock := by
    unfold reserveMatches at hx_match
    simp only [Bool.and_eq_true, beq_iff_eq, decide_eq_true_eq] at hx_match
    exact hx_match
  have hfind : ∃ y, ps.find? (fun p => p.id == productId) = some y := by
    have : (ps.find? (fun p => p.id == productId)).isSome := by
      rw [List.find?_isSome]
      exact ⟨x, hx_mem, by rw [beq_iff_eq]; exact hx_parts.1⟩
    exact Option.isSome_iff_exists.mp this
  obtain ⟨y, hy⟩ := hfind
  have hy_mem := List.mem_of_find?_eq_some hy
  have hy_id : y.id = productId := by
    have := List.find?_some hy
    rwa [beq_iff_eq] at this
  have hxy : x = y :=
    List.inj_on_of_nodup_map hnd hx_mem hy_mem (by rw [hx_parts.1, hy_id])
  subst hxy
  refine ⟨x.stock, ?_, hx_parts.2, ?_⟩
  · unfold stockOf
    rw [hy]
    rfl
  · unfold stockOf
    rw [find?_map_pred (applyReserve productId q) (fun p => p.id == productId)
      (fun a => by simp only [applyReserve_id])]
    rw [hy]
    simp only [Option.map]
    unfold applyReserve
    rw [hx_match]
    simp

/-- A successful conditional decrement keeps every stock non-negative. -/
theorem reserveStock_nonneg {ps : List Product} {productId : Nat} {q : Int}
    {ps2 : List Product} (h : reserveStock ps productId q = some ps2)
    (hpos : ∀ p ∈ ps, 0 ≤ p.stock) : ∀ p ∈ ps2, 0 ≤ p.stock := by
  obtain ⟨-, rfl⟩ := reserveStock_some h
  intro p hp
  obtain ⟨p0, hp0, rfl⟩ := List.mem_map.mp hp
  unfold applyReserve
  split
  · next hm =>
    have hq : q ≤ p0.stock := by
      unfold reserveMatches at hm
      simp only [Bool.and_eq_true, beq_iff_eq, decide_eq_true_eq] at hm
      exact hm.2
    simp only
    omega
  · exact hpos p0 hp0

/-- A successful conditional decrement preserves the product id column, and
with it uniqueness of ids. -/
theorem reserveStock_nodup {ps : List Product} {productId : Nat} {q : Int}
    {ps2 : List Product} (h : reserveStock ps productId q = some ps2)
    (hnd : (ps.map Product.id).Nodup) : (ps2.map Product.id).Nodup := by
  obtain ⟨-, rfl⟩ := reserveStock_some h
  rw [List.map_map]
  have : ps.map (Product.id ∘ applyReserve productId q) = ps.map Product.id :=
    List.map_congr_left (fun a _ => applyReserve_id productId q a)
  rw [this]
  exact hnd

/-- A reservation attempt that exceeds the current stock affects zero rows. -/
theorem reserveStock_insufficient {ps : List Product} {productId : Nat}
    {q s : Int} (hnd : (ps.map Product.id).Nodup)
    (hs : stockOf ps productId = some s) (hlt : s < q) :
    reserveStock ps productId q = none := by
  unfold stockOf at hs
  cases hf : ps.find? (fun p => p.id == productId) with
  | none => rw [hf] at hs; cases hs
  | some y =>
    rw [hf] at hs
    have hys : y.stock = s := Option.some.inj hs
    have hy_mem := List.mem_of_find?_eq_some hf
    have hy_id : y.id = productId := by
      have := List.find?_some hf
      rwa [beq_iff_eq] at this
    unfold reserveStock
    rw [if_pos]
    rw [List.countP_eq_zero]
    intro x hx_mem hx_match
    have hx_parts : x.id = productId ∧ q ≤ x.stock := by
      unfold reserveMatches at hx_match
      simp only [Bool.and_eq_true, beq_iff_eq, decide_eq_true_eq] at hx_match
      exact hx_match
    have hxy : x = y :=
      List.inj_on_of_nodup_map hnd hx_mem hy_mem (by rw [hx_parts.1, hy_id])
    subst hxy
    omega

/-- Threading a sequence of reservation attempts: the stock of any one
product ends at its initial value minus the total successfully reserved for
it, and every stock stays non-negative. -/
theorem runReservations_spec :
    ∀ (attempts : List (Nat × Int)) (ps : List Product) (productId : Nat) (s : Int),
      (ps.map Product.id).Nodup → (∀ p ∈ ps, 0 ≤ p.stock) →
      stockOf ps productId = some s →
      stockOf (runReservations ps attempts) productId
          = some (s - reservedFor ps productId attempts)
        ∧ (∀ p ∈ runReservations ps attempts, 0 ≤ p.stock) := by
  intro attempts
  induction attempts with
  | nil =>
    intro ps productId s hnd hpos hs
    simp only [runReservations, reservedFor]
    rw [hs]
    exact ⟨by norm_num, hpos⟩
  | cons a rest ih =>
    obtain ⟨pid2, q⟩ := a
    intro ps productId s hnd hpos hs
    simp only [runReservations, reservedFor]
    cases hr : reserveStock ps pid2 q with
    | none => simpa using ih ps productId s hnd hpos hs
    | some ps2 =>
      have hnd2 := reserveStock_nodup hr hnd
      have hpos2 := reserveStock_nonneg hr hpos
      by_cases hpp : pid2 = productId
      · subst hpp
        obtain ⟨s2, hs2, hq2, hs2a⟩ := reserveStock_success_enough hnd hr
        have hss : s2 = s := by
          rw [hs2] at hs
          exact Option.some.inj hs
        subst hss
        obtain ⟨h1, h2⟩ := ih ps2 pid2 (s2 - q) hnd2 hpos2 hs2a
        refine ⟨?_, h2⟩
        rw [h1, if_pos rfl]
        congr 1
        ring
      · obtain ⟨-, hps2⟩ := reserveStock_some hr
        have hs2 : stockOf ps2 productId = some s := by
          rw [hps2, stockOf_map_applyReserve_ne hpp, hs]
        obtain ⟨h1, h2⟩ := ih ps2 productId s hnd2 hpos2 hs2
        refine ⟨?_, h2⟩
        rw [h1, if_neg hpp]
        congr 1
        ring

/-- A readable stock is the stock of a member row. -/
theorem stockOf_nonneg {ps : List Product} {productId : Nat} {s : Int}
    (hpos : ∀ p ∈ ps, 0 ≤ p.stock) (hs : stockOf ps productId = some s) :
    0 ≤ s := by
  unfold stockOf at hs
  cases hf : ps.find? (fun p => p.id == productId) with
  | none => rw [hf] at hs; cases hs
  | some y =>
    rw [hf] at hs
    have hys : y.stock = s := Option.some.inj hs
    have := hpos y (List.mem_of_find?_eq_some hf)
    omega

/-! ## C2: conditional decrement keeps stock sound -/

/-- C2: a decrement of quantity q succeeds only when the current stock is at
least q; successful decrements keep every stock non-negative; over any
sequence of reservation attempts the total successfully reserved for a
product never exceeds its initial stock; and an attempt exceeding the
remaining stock fails with the out-of-stock error. -/
theorem stock_reservation_safety :
    (∀ ps productId q ps2, ((ps : List Product).map Product.id).Nodup →
        reserveStock ps productId q = some ps2 →
        ∃ s, stockOf ps productId = some s ∧ q ≤ s)
  ∧ (∀ ps productId q ps2, reserveStock ps productId q = some ps2 →
        (∀ p ∈ ps, 0 ≤ p.stock) → ∀ p ∈ ps2, 0 ≤ p.stock)
  ∧ (∀ ps attempts productId s, ((ps : List Product).map Product.id).Nodup →
        (∀ p ∈ ps, 0 ≤ p.stock) → stockOf ps productId = some s →
        reservedFor ps productId attempts ≤ s)
  ∧ (∀ ps productId q s (line : OrderLine),
        ((ps : List Product).map Product.id).Nodup →
        stockOf ps productId = some s → s < q →
        line.productId = productId → line.quantity = q →
        reserveLines 409 ps [line]
          = .error ⟨409, line.productName ++ " is out of stock."⟩) := by
  refine ⟨?_, ?_, ?_, ?_⟩
  · intro ps productId q ps2 hnd h
    obtain ⟨s, hs, hq, -⟩ := reserveStock_success_enough hnd h
    exact ⟨s, hs, hq⟩
  · intro ps productId q ps2 h hpos
    exact reserveStock_nonneg h hpos
  · intro ps attempts productId s hnd hpos hs
    obtain ⟨h1, h2⟩ := runReservations_spec attempts ps productId s hnd hpos hs
    have := stockOf_nonneg h2 h1
    omega
  · intro ps productId q s line hnd hs hlt hlp hlq
    unfold reserveLines
    rw [hlp, hlq, reserveStock_insufficient hnd hs hlt]

/-- Witness for C2 on the fixture products: a decrement within stock
succeeds with the bookkeeping intact, an over-large attempt fails. -/
theorem stock_reservation_safety_witness :
    (∃ s, stockOf [prodA, prodB] 1 = some s ∧ (2 : Int) ≤ s)
      ∧ reservedFor [prodA, prodB] 1 [(1, 2), (2, 1), (1, 9)] ≤ 5
      ∧ reserveLines 409 [prodA, prodB] [lineOver]
          = .error ⟨409, "Tote is out of stock."⟩ := by
  refine ⟨?_, ?_, ?_⟩
  · exact stock_reservation_safety.1 [prodA, prodB] 1 2
      ([⟨1, "Mug", 40, 3⟩, prodB]) (by decide) (by decide)
  · exact stock_reservation_safety.2.2.1 [prodA, prodB] [(1, 2), (2, 1), (1, 9)]
      1 5 (by decide) (by decide) (by decide)
  · exact stock_reservation_safety.2.2.2 [prodA, prodB] 2 3 1 lineOver
      (by decide) (by decide) (by decide) rfl rfl

/-! ## C8: shipping policy -/

/-- C8: the shipping cost is a pure function of the subtotal: shipping(0) = 0;
shipping(x) = 12 for every x with 0 < x and x ≤ 250; shipping(x) = 0 for
every x with 250 < x. -/
theorem computeShipping_spec :
    computeShipping 0 = 0
      ∧ (∀ x : Int, 0 < x → x ≤ 250 → computeShipping x = 12)
      ∧ (∀ x : Int, 250 < x → computeShipping x = 0) := by
  refine ⟨rfl, ?_, ?_⟩
  · intro x hpos hle
    simp only [computeShipping]
    rw [if_neg]
    simp only [Bool.or_eq_true, decide_eq_true_eq, beq_iff_eq, not_or]
    omega
  · intro x hgt
    simp only [computeShipping]
    rw [if_pos]
    simp only [Bool.or_eq_true, decide_eq_true_eq]
    left
    exact hgt

/-- Witness for C8 at concrete subtotals. -/
theorem computeShipping_spec_witness :
    computeShipping 0 = 0 ∧ computeShipping 100 = 12 ∧ computeShipping 251 = 0 :=
  ⟨computeShipping_spec.1,
   computeShipping_spec.2.1 100 (by decide) (by decide),
   computeShipping_spec.2.2 251 (by decide)⟩

/-- The reduce over the cart equals the sum of unitPrice times quantity over
the snapshotted lines it turns into. -/
theorem cartSubtotal_eq_lines_sum (cart : List (CartItem × Product)) :
    cartSubtotal cart
      = ((linesOfCart cart).map fun l => l.unitPrice * l.quantity).sum := by
  have h := foldl_add_map (fun ip : CartItem × Product => ip.2.price * ip.1.quantity) cart 0
  simp only [cartSubtotal] at *
  rw [h]
  simp only [linesOfCart, List.map_map, zero_add]
  rfl

/-! ## C7: order totals -/

/-- C7: every order created by either checkout path satisfies
total = subtotal + shipping and subtotal = the sum of unitPrice times
quantity over its lines, the lines being snapshotted from the cart items and
their products. -/
theorem order_totals_invariant :
    (∀ db uid info oid code st db2 o,
        checkoutImmediate db uid info oid code st = (db2, .ok o) →
        o.total = o.subtotal + o.shipping
          ∧ o.subtotal = ((o.lines.map fun l => l.unitPrice * l.quantity).sum)
          ∧ ∃ cart, joinCart db uid = some cart ∧ o.lines = linesOfCart cart)
  ∧ (∀ db uid info sid oid code db2 o,
        checkoutSession db uid info sid oid code = (db2, .ok o) →
        o.total = o.subtotal + o.shipping
          ∧ o.subtotal = ((o.lines.map fun l => l.unitPrice * l.quantity).sum)
          ∧ ∃ cart, joinCart db uid = some cart ∧ o.lines = linesOfCart cart) := by
  constructor
  · intro db uid info oid code st db2 o h
    rw [checkoutImmediate] at h
    rcases hj : joinCart db uid with _ | cart
    · rw [hj] at h
      simp at h
    · rw [hj] at h
      cases he : cart.isEmpty
      · simp only [he, Bool.false_eq_true, if_false] at h
        rcases hf : firstInsufficient cart with _ | ip
        · rw [hf] at h
          rcases hr : reserveLines 400 db.products (linesOfCart cart) with e | products2
          · rw [hr] at h
            simp at h
          · rw [hr] at h
            simp only [Prod.mk.injEq, Except.ok.injEq] at h
            rcases h with ⟨-, ho⟩
            subst ho
            refine ⟨rfl, ?_, cart, rfl, rfl⟩
            exact cartSubtotal_eq_lines_sum cart
        · rw [hf] at h
          simp at h
      · simp only [he, if_true] at h
        simp at h
  · intro db uid info sid oid code db2 o h
    rw [checkoutSession] at h
    rcases hj : joinCart db uid with _ | cart
    · rw [hj] at h
      simp at h
    · rw [hj] at h
      cases he : cart.isEmpty
      · simp only [he, Bool.false_eq_true, if_false] at h
        rcases hf : firstInsufficient cart with _ | ip
        · rw [hf] at h
          simp only [Prod.mk.injEq, Except.ok.injEq] at h
          rcases h with ⟨-, ho⟩
          subst ho
          refine ⟨rfl, ?_, cart, rfl, rfl⟩
          exact cartSubtotal_eq_lines_sum cart
        · rw [hf] at h
          simp at h
      · simp only [he, if_true] at h
        simp at h

/-- Witness for C7: the immediate checkout of the alice fixture cart creates
an order whose totals satisfy the invariant. -/
theorem order_totals_invariant_witness :
    ∃ db2 o, checkoutImmediate dbPending "alice" infoW 20 "EC-W" OrderStatus.PLACED
        = (db2, .ok o)
      ∧ o.total = o.subtotal + o.shipping
      ∧ o.subtotal = ((o.lines.map fun l => l.unitPrice * l.quantity).sum) := by
  obtain ⟨o, ho⟩ : ∃ o,
      (checkoutImmediate dbPending "alice" infoW 20 "EC-W" OrderStatus.PLACED).2
        = .ok o := ⟨_, rfl⟩
  have hpair : checkoutImmediate dbPending "alice" infoW 20 "EC-W" OrderStatus.PLACED
      = ((checkoutImmediate dbPending "alice" infoW 20 "EC-W" OrderStatus.PLACED).1,
         .ok o) := by
    rw [← ho]
  have h := order_totals_invariant.1 dbPending "alice" infoW 20 "EC-W"
    OrderStatus.PLACED _ o hpair
  exact ⟨_, o, hpair, h.1, h.2.1⟩

/-! ## Finalization claim lemmas -/

/-- The claim row update never changes a row id. -/
theorem applyPlace_id (orderId : Nat) (o : Order) :
    (applyPlace orderId o).id = o.id := by
  unfold applyPlace
  split <;> rfl

/-- After the claim update runs, no row with the claimed id is still
PENDING_PAYMENT: every matching row was moved to PLACED. -/
theorem countPendingById_after_apply (orders : List Order) (orderId : Nat) :
    countPendingById (orders.map (applyPlace orderId)) orderId = 0 := by
  unfold countPendingById
  rw [List.countP_eq_zero]
  intro y hy
  obtain ⟨x, hx, rfl⟩ := List.mem_map.mp hy
  unfold applyPlace
  split
  · simp [pendingMatches]
  · next hm => exact hm

/-- A claim that affects zero rows commits nothing: the database state is
returned unchanged. -/
theorem claimAndAct_fst_zero {db : DB} {snap : Order}
    (h : countPendingById db.orders snap.id = 0) :
    (claimAndAct db snap).1 = db := by
  unfold claimAndAct
  simp only [setOrderPlacedIfPending, h]
  rw [if_true]
  cases hf : findOrderById db.orders snap.id with
  | none => rfl
  | some latest => rfl

/-- A claim that affects zero rows re-reads the order and returns it. -/
theorem claimAndAct_zero_returns {db : DB} {snap latest : Order}
    (h : countPendingById db.orders snap.id = 0)
    (hf : findOrderById db.orders snap.id = some latest) :
    claimAndAct db snap = (db, .ok latest) := by
  unfold claimAndAct
  simp only [setOrderPlacedIfPending, h]
  rw [if_true, hf]

/-- An invocation whose claim would affect zero rows reserves nothing. -/
theorem reservesStock_false_of_zero {db : DB} {snap : Order}
    (h : countPendingById db.orders snap.id = 0) :
    reservesStock db snap = false := by
  unfold reservesStock setOrderPlacedIfPending
  simp [h]

/-- After an invocation that reserves stock commits, no row with the claimed
id is PENDING_PAYMENT any more. -/
theorem claimAndAct_commits {db : DB} {snap : Order}
    (h : reservesStock db snap = true) :
    countPendingById (claimAndAct db snap).1.orders snap.id = 0 := by
  unfold reservesStock setOrderPlacedIfPending at h
  simp only [Bool.and_eq_true, decide_eq_true_eq] at h
  obtain ⟨hcnt, hok⟩ := h
  cases hr : reserveLines 409 db.products snap.lines with
  | error e =>
    rw [hr] at hok
    cases hok
  | ok products2 =>
    have hex : ∃ z, findOrderById (db.orders.map (applyPlace snap.id)) snap.id
        = some z := by
      have hx : ∃ x ∈ db.orders, pendingMatches snap.id x = true := by
        by_contra hno
        push_neg at hno
        exact hcnt (List.countP_eq_zero.mpr (by simpa using hno))
      obtain ⟨x, hx_mem, hx_match⟩ := hx
      have hx_id : x.id = snap.id := by
        unfold pendingMatches at hx_match
        simp only [Bool.and_eq_true, beq_iff_eq] at hx_match
        exact hx_match.1
      have : (List.find? (fun o => o.id == snap.id)
          (db.orders.map (applyPlace snap.id))).isSome := by
        rw [List.find?_isSome]
        exact ⟨applyPlace snap.id x, List.mem_map_of_mem _ hx_mem,
          by rw [beq_iff_eq, applyPlace_id, hx_id]⟩
      exact Option.isSome_iff_exists.mp this
    obtain ⟨z, hz⟩ := hex
    unfold claimAndAct
    simp only [setOrderPlacedIfPending]
    rw [if_neg hcnt, hr]
    simp only [hz]
    exact countPendingById_after_apply db.orders snap.id

/-- Once no PENDING_PAYMENT row with the order id is left, no later
interleaved invocation reserves stock for it. -/
theorem reservationsCount_zero {oid : Nat} :
    ∀ (snaps : List Order) (db : DB), (∀ s ∈ snaps, s.id = oid) →
      countPendingById db.orders oid = 0 → reservationsCount db snaps = 0 := by
  intro snaps
  induction snaps with
  | nil => intro db _ _; rfl
  | cons s rest ih =>
    intro db hall h0
    have hsid : s.id = oid := hall s (List.mem_cons_self s rest)
    have hs0 : countPendingById db.orders s.id = 0 := by rw [hsid]; exact h0
    simp only [reservationsCount]
    rw [reservesStock_false_of_zero hs0, claimAndAct_fst_zero hs0]
    simp only [Bool.false_eq_true, if_false, Nat.zero_add]
    exact ih db (fun t ht => hall t (List.mem_cons_of_mem s ht)) h0

/-! ## C1: at most one finalization reserves stock -/

/-- C1: across any interleaving of finalization invocations for the same
order, at most one performs the stock decrement and cart clear — the one
whose conditional update moves the status from PENDING_PAYMENT to PLACED —
and an invocation whose conditional update affects zero rows re-reads the
order and returns it with the database unchanged, decrementing no stock. -/
theorem finalize_at_most_one_reservation :
    (∀ (db : DB) (snaps : List Order) (oid : Nat), (∀ s ∈ snaps, s.id = oid) →
        reservationsCount db snaps ≤ 1)
  ∧ (∀ (db : DB) (snap latest : Order),
        countPendingById db.orders snap.id = 0 →
        findOrderById db.orders snap.id = some latest →
        claimAndAct db snap = (db, .ok latest)) := by
  constructor
  · intro db snaps oid
    induction snaps generalizing db with
    | nil => intro _; simp [reservationsCount]
    | cons s rest ih =>
      intro hall
      have hsid : s.id = oid := hall s (List.mem_cons_self s rest)
      have htail : ∀ t ∈ rest, t.id = oid :=
        fun t ht => hall t (List.mem_cons_of_mem s ht)
      simp only [reservationsCount]
      cases hres : reservesStock db s
      · simp only [Bool.false_eq_true, if_false, Nat.zero_add]
        exact ih (claimAndAct db s).1 htail
      · simp only [if_true]
        have hzero : countPendingById (claimAndAct db s).1.orders oid = 0 := by
          rw [← hsid]
          exact claimAndAct_commits hres
        rw [reservationsCount_zero rest (claimAndAct db s).1 htail hzero]
  · intro db snap latest h hf
    exact claimAndAct_zero_returns h hf

/-- Witness for C1: three interleaved finalizations of the fixture pending
order reserve at most once, and a claim against the already-placed order is
a pure re-read. -/
theorem finalize_at_most_one_reservation_witness :
    reservationsCount dbPending [pendingOrder, pendingOrder, pendingOrder] ≤ 1
      ∧ claimAndAct dbPending placedOrder = (dbPending, .ok placedOrder) :=
  ⟨finalize_at_most_one_reservation.1 dbPending
      [pendingOrder, pendingOrder, pendingOrder] 10 (by decide),
   finalize_at_most_one_reservation.2 dbPending placedOrder placedOrder
      (by decide) (by decide)⟩

/-! ## Read-phase and error analysis -/

/-- A read phase that finishes immediately finished either with the uniform
404 or by returning an order unchanged. -/
theorem readPhase_inl {db : DB} {sid : String} {uid : Option String}
    {r : Except HttpError Order} (h : readPhase db sid uid = .inl r) :
    r = .error noOrderErr ∨ ∃ o, r = .ok o := by
  unfold readPhase at h
  split at h
  · cases h
    exact .inl rfl
  · split at h
    · cases h
      exact .inl rfl
    · split at h
      · next o hf hmb hPF =>
        cases h
        exact .inr ⟨o, rfl⟩
      · split at h
        · next o hf hmb hPF hC =>
          cases h
          exact .inr ⟨o, rfl⟩
        · cases h

/-- A read phase that hands a snapshot to the claim found the order for the
session, in PENDING_PAYMENT, with no owner mismatch. -/
theorem readPhase_inr {db : DB} {sid : String} {uid : Option String}
    {snap : Order} (h : readPhase db sid uid = .inr snap) :
    findOrderBySession db.orders sid = some snap
      ∧ snap.status = OrderStatus.PENDING_PAYMENT
      ∧ ownerMismatch uid snap = false := by
  unfold readPhase at h
  split at h
  · cases h
  · split at h
    · cases h
    · split at h
      · cases h
      · split at h
        · cases h
        · next o hf hmb hPF hC =>
          cases h
          refine ⟨hf, ?_, by simpa using hmb⟩
          cases hst : snap.status
          case PENDING_PAYMENT => rfl
          case PLACED => simp [hst] at hPF
          case FULFILLED => simp [hst] at hPF
          case CANCELLED => simp [hst] at hC

/-- Finalization is the read phase followed, when it finishes there, by the
immediate result. -/
theorem finalizeStripeOrder_inl {db : DB} {sid : String} {uid : Option String}
    {r : Except HttpError Order} (hread : readPhase db sid uid = .inl r) :
    finalizeStripeOrder db sid uid = (db, r) := by
  unfold finalizeStripeOrder
  rw [hread]

/-- Finalization is the read phase followed, when it hands over a snapshot,
by the claim-and-act phase on the same state. -/
theorem finalizeStripeOrder_inr {db : DB} {sid : String} {uid : Option String}
    {snap : Order} (hread : readPhase db sid uid = .inr snap) :
    finalizeStripeOrder db sid uid = claimAndAct db snap := by
  unfold finalizeStripeOrder
  rw [hread]

/-- A claim-and-act phase that throws rolls its transaction back: the
committed state is the input state. -/
theorem claimAndAct_error_fst {db : DB} {snap : Order} {e : HttpError}
    (h : (claimAndAct db snap).2 = .error e) : (claimAndAct db snap).1 = db := by
  unfold claimAndAct at h ⊢
  simp only [setOrderPlacedIfPending] at h ⊢
  by_cases hc : countPendingById db.orders snap.id = 0
  · rw [if_pos hc] at h ⊢
    cases hfi : findOrderById db.orders snap.id
    · rfl
    · rfl
  · rw [if_neg hc] at h ⊢
    cases hr : reserveLines 409 db.products snap.lines
    · rfl
    · next products2 =>
      rw [hr] at h
      cases hfi : findOrderById (db.orders.map (applyPlace snap.id)) snap.id
      · rfl
      · next finalized =>
        rw [hfi] at h
        exact Except.noConfusion (h : Except.ok finalized = Except.error e)

/-- A finalization that throws a 409 rolled its transaction back (the state
is unchanged) and had found the order of the session in PENDING_PAYMENT. -/
theorem finalize_error409 {db : DB} {sid : String} {uid : Option String}
    {e : HttpError} (h : (finalizeStripeOrder db sid uid).2 = .error e)
    (h409 : e.status = 409) :
    (finalizeStripeOrder db sid uid).1 = db
      ∧ ∃ o, findOrderBySession db.orders sid = some o
          ∧ o.status = OrderStatus.PENDING_PAYMENT := by
  cases hread : readPhase db sid uid with
  | inl r =>
    rw [finalizeStripeOrder_inl hread] at h ⊢
    replace h : r = Except.error e := h
    rcases readPhase_inl hread with hr | ⟨o, hr⟩
    · rw [hr] at h
      cases h
      exact absurd h409 (by decide)
    · rw [hr] at h
      cases h
  | inr snap =>
    rw [finalizeStripeOrder_inr hread] at h ⊢
    obtain ⟨hf, hst, -⟩ := readPhase_inr hread
    exact ⟨claimAndAct_error_fst h, snap, hf, hst⟩

/-! ## Compensation lemmas -/

/-- The compensating cancellation never changes a row session id. -/
theorem applyCancel_sessionId (sid : String) (o : Order) :
    (applyCancel sid o).stripeSessionId = o.stripeSessionId := by
  unfold applyCancel
  split <;> rfl

/-- Looking an order up by session commutes with the compensating
cancellation update. -/
theorem findOrderBySession_cancel (orders : List Order) (sid : String) :
    findOrderBySession (setOrderCancelledIfPending orders sid) sid
      = (findOrderBySession orders sid).map (applyCancel sid) := by
  unfold findOrderBySession setOrderCancelledIfPending
  exact find?_map_pred _ _ (fun a => by simp only [applyCancel_sessionId]) orders

/-- Compensation moves a PENDING_PAYMENT order of the session to CANCELLED. -/
theorem compensate_cancels_pending {db : DB} {session : StripeSession} {o : Order}
    (hf : findOrderBySession db.orders session.id = some o)
    (hp : o.status = OrderStatus.PENDING_PAYMENT) :
    statusOfSession (compensateStripeFulfillmentFailure db session).1 session.id
      = some OrderStatus.CANCELLED := by
  have hsess : (o.stripeSessionId == some session.id) = true := by
    have hf2 : List.find? (fun o2 => o2.stripeSessionId == some session.id) db.orders
        = some o := hf
    have h0 := List.find?_some hf2
    simpa using h0
  have hcond : (o.stripeSessionId == some session.id
      && o.status == OrderStatus.PENDING_PAYMENT) = true := by
    rw [hsess, hp]
    rfl
  simp only [statusOfSession, compensateStripeFulfillmentFailure]
  rw [findOrderBySession_cancel, hf]
  show some (applyCancel session.id o).status = some OrderStatus.CANCELLED
  unfold applyCancel
  rw [hcond]
  rfl

/-- Compensation leaves the status of an order of the session that is not
PENDING_PAYMENT untouched: the conditional update matches nothing. -/
theorem compensate_preserves_nonpending {db : DB} {session : StripeSession}
    {o : Order} (hf : findOrderBySession db.orders session.id = some o)
    (hp : o.status ≠ OrderStatus.PENDING_PAYMENT) :
    statusOfSession (compensateStripeFulfillmentFailure db session).1 session.id
      = some o.status := by
  have hcond : (o.stripeSessionId == some session.id
      && o.status == OrderStatus.PENDING_PAYMENT) = false := by
    have hst : (o.status == OrderStatus.PENDING_PAYMENT) = false := by
      simpa using hp
    rw [hst, Bool.and_false]
  simp only [statusOfSession, compensateStripeFulfillmentFailure]
  rw [findOrderBySession_cancel, hf]
  show some (applyCancel session.id o).status = some o.status
  unfold applyCancel
  rw [hcond]
  rfl

/-! ## C3: compensation after a failed fulfillment -/

/-- C3: when finalization of a session fails with a 409 out-of-stock
condition, the transaction rolled back (state unchanged) and the order of the
session is still PENDING_PAYMENT; compensation then leaves that order
CANCELLED and, when a payment intent is present, issues the idempotent
refund; and the cancellation is conditional — it only changes an order that
is still PENDING_PAYMENT. -/
theorem compensation_cancels :
    (∀ db sid uid e, (finalizeStripeOrder db sid uid).2 = .error e →
        e.status = 409 →
        (finalizeStripeOrder db sid uid).1 = db
          ∧ statusOfSession db sid = some OrderStatus.PENDING_PAYMENT
          ∧ (∀ intent, statusOfSession
                (compensateStripeFulfillmentFailure db ⟨sid, intent⟩).1 sid
                = some OrderStatus.CANCELLED)
          ∧ (∀ intentId,
                (compensateStripeFulfillmentFailure db ⟨sid, some intentId⟩).2.1
                  = [⟨intentId, "requested_by_customer", "earthco-refund-" ++ sid⟩]))
  ∧ (∀ db (session : StripeSession) o,
        findOrderBySession db.orders session.id = some o →
        o.status ≠ OrderStatus.PENDING_PAYMENT →
        statusOfSession (compensateStripeFulfillmentFailure db session).1 session.id
          = some o.status) := by
  constructor
  · intro db sid uid e h h409
    obtain ⟨hfst, o, hf, hp⟩ := finalize_error409 h h409
    refine ⟨hfst, ?_, ?_, fun intentId => rfl⟩
    · unfold statusOfSession
      rw [hf]
      show some o.status = some OrderStatus.PENDING_PAYMENT
      rw [hp]
    · intro intent
      exact compensate_cancels_pending hf hp
  · intro db session o hf hp
    exact compensate_preserves_nonpending hf hp

/-- Witness for C3: finalizing sess9 fails 409 on the over-large line; the
order is still PENDING_PAYMENT, compensation cancels it and refunds with the
idempotency key. -/
theorem compensation_cancels_witness :
    statusOfSession dbPending "sess9" = some OrderStatus.PENDING_PAYMENT
      ∧ statusOfSession
          (compensateStripeFulfillmentFailure dbPending ⟨"sess9", some "pi_9"⟩).1
          "sess9" = some OrderStatus.CANCELLED
      ∧ (compensateStripeFulfillmentFailure dbPending ⟨"sess9", some "pi_9"⟩).2.1
          = [⟨"pi_9", "requested_by_customer", "earthco-refund-" ++ "sess9"⟩] := by
  have h := compensation_cancels.1 dbPending "sess9" none
    ⟨409, "Tote is out of stock."⟩ rfl rfl
  exact ⟨h.2.1, h.2.2.1 (some "pi_9"), h.2.2.2 "pi_9"⟩

/-! ## C5: absorbing states short-circuit to a no-op -/

/-- C5: for every order whose status is PLACED, FULFILLED or CANCELLED,
finalizing its session returns that order and leaves the database — every
order field, every product stock, every cart item — unchanged. -/
theorem finalize_absorbing (db : DB) (sid : String) (uid : Option String) (o : Order)
    (hfind : findOrderBySession db.orders sid = some o)
    (howner : ownerMismatch uid o = false)
    (hstatus : o.status = OrderStatus.PLACED ∨ o.status = OrderStatus.FULFILLED
      ∨ o.status = OrderStatus.CANCELLED) :
    finalizeStripeOrder db sid uid = (db, .ok o) := by
  rcases hstatus with h | h | h <;>
    simp [finalizeStripeOrder, readPhase, hfind, howner, h]

/-- Witness for C5: finalizing the already-placed order of sess2 returns it
and changes nothing. -/
theorem finalize_absorbing_witness :
    finalizeStripeOrder dbPending "sess2" none = (dbPending, .ok placedOrder) :=
  finalize_absorbing dbPending "sess2" none placedOrder (by decide) (by decide)
    (Or.inl (by decide))

/-! ## C6: the two not-found failures are uniform and mutation-free -/

/-- C6: finalize fails with the same 404 "No order found for this Stripe
session." both when no order exists for the session and when the supplied
expected owner differs from the order owner; in both cases the database is
returned unchanged and the two failures are the same value. -/
theorem finalize_notfound_uniform :
    (∀ db sid uid, findOrderBySession db.orders sid = none →
        finalizeStripeOrder db sid uid = (db, .error noOrderErr))
  ∧ (∀ db sid u o, findOrderBySession db.orders sid = some o → o.userId ≠ u →
        finalizeStripeOrder db sid (some u) = (db, .error noOrderErr)) := by
  constructor
  · intro db sid uid h
    simp [finalizeStripeOrder, readPhase, h]
  · intro db sid u o h hm
    have hmm : ownerMismatch (some u) o = true := by
      simp [ownerMismatch, hm]
    simp [finalizeStripeOrder, readPhase, h, hmm]

/-- Witness for C6: an unknown session and a cross-account attempt both return
the same 404 with the database untouched. -/
theorem finalize_notfound_uniform_witness :
    finalizeStripeOrder emptyDB "nope" none = (emptyDB, .error noOrderErr)
      ∧ finalizeStripeOrder dbPending "sess1" (some "mallory")
          = (dbPending, .error noOrderErr) :=
  ⟨finalize_notfound_uniform.1 emptyDB "nope" none (by decide),
   finalize_notfound_uniform.2 dbPending "sess1" "mallory" pendingOrder
     (by decide) (by decide)⟩

/-! ## C9: refund guard of the compensator -/

/-- C9: compensation refunds exactly when the session carries a payment
intent: with no intent there is no refund call, yet the conditional
cancellation update and the audit record still happen; with an intent the
refund is tagged with the idempotency key earthco-refund- followed by the
session id. -/
theorem compensation_refund_guard :
    (∀ db sid,
        compensateStripeFulfillmentFailure db ⟨sid, none⟩ =
          ({ db with orders := setOrderCancelledIfPending db.orders sid }, [],
           ⟨"stripe.order_cancelled_after_failed_fulfillment", sid,
            (findOrderBySession db.orders sid).map Order.id, false⟩))
  ∧ (∀ db sid intent,
        (compensateStripeFulfillmentFailure db ⟨sid, some intent⟩).2.1 =
          [⟨intent, "requested_by_customer", "earthco-refund-" ++ sid⟩]) :=
  ⟨fun _ _ => rfl, fun _ _ _ => rfl⟩

/-! ## C4: bounded retry of order code generation -/

/-- One loop iteration on a successful insert returns at once. -/
theorem createOrderGo_succ_ok (outcomes : Nat → InsertOutcome)
    (attempt f : Nat) (le : Option DbError) (o : Order)
    (he : outcomes attempt = .ok o) :
    createOrderGo outcomes attempt (f + 1) le = .ok (attempt + 1) o := by
  simp only [createOrderGo, he]

/-- One loop iteration on an orderCode conflict before the final attempt
records the error and continues. -/
theorem createOrderGo_succ_conflict (outcomes : Nat → InsertOutcome)
    (attempt f : Nat) (le : Option DbError) (e : DbError)
    (he : outcomes attempt = .err e) (hce : isOrderCodeConflict e = true)
    (hlt : attempt < ORDER_CODE_MAX_ATTEMPTS - 1) :
    createOrderGo outcomes attempt (f + 1) le
      = createOrderGo outcomes (attempt + 1) f (some e) := by
  simp only [createOrderGo, he, hce, Bool.true_and]
  rw [if_pos (decide_eq_true hlt)]

/-- One loop iteration rethrows when the error is no orderCode conflict or
the attempt bound is reached. -/
theorem createOrderGo_succ_stop (outcomes : Nat → InsertOutcome)
    (attempt f : Nat) (le : Option DbError) (e : DbError)
    (he : outcomes attempt = .err e)
    (hstop : (isOrderCodeConflict e
      && decide (attempt < ORDER_CODE_MAX_ATTEMPTS - 1)) = false) :
    createOrderGo outcomes attempt (f + 1) le = .raisedDb e := by
  simp only [createOrderGo, he, hstop, Bool.false_eq_true, if_false]

/-- Running the retry loop over k consecutive orderCode conflicts followed by
a successful insert returns the created order after exactly k + 1 attempts. -/
theorem createOrderGo_run_ok (outcomes : Nat → InsertOutcome) :
    ∀ (k attempt fuel : Nat) (le : Option DbError) (o : Order),
      attempt + fuel = ORDER_CODE_MAX_ATTEMPTS →
      attempt + k < ORDER_CODE_MAX_ATTEMPTS →
      (∀ i, i < k → ∃ e, outcomes (attempt + i) = .err e ∧ isOrderCodeConflict e = true) →
      outcomes (attempt + k) = .ok o →
      createOrderGo outcomes attempt fuel le = .ok (attempt + k + 1) o := by
  intro k
  induction k with
  | zero =>
    intro attempt fuel le o hsum hlt hconf hok
    obtain ⟨f, rfl⟩ : ∃ f, fuel = f + 1 := ⟨fuel - 1, by omega⟩
    rw [Nat.add_zero] at hok
    rw [Nat.add_zero]
    exact createOrderGo_succ_ok outcomes attempt f le o hok
  | succ k ih =>
    intro attempt fuel le o hsum hlt hconf hok
    obtain ⟨f, rfl⟩ : ∃ f, fuel = f + 1 := ⟨fuel - 1, by omega⟩
    obtain ⟨e, he, hce⟩ := hconf 0 (Nat.succ_pos k)
    rw [Nat.add_zero] at he
    have hlt4 : attempt < ORDER_CODE_MAX_ATTEMPTS - 1 := by
      simp only [ORDER_CODE_MAX_ATTEMPTS] at hlt ⊢
      omega
    rw [createOrderGo_succ_conflict outcomes attempt f le e he hce hlt4]
    have h1 : attempt + 1 + k + 1 = attempt + (k + 1) + 1 := by omega
    rw [← h1]
    refine ih (attempt + 1) f (some e) o (by omega) (by omega) ?_ ?_
    · intro i hi
      have h2 : attempt + 1 + i = attempt + (i + 1) := by omega
      rw [h2]
      exact hconf (i + 1) (by omega)
    · have h3 : attempt + 1 + k = attempt + (k + 1) := by omega
      rw [h3]
      exact hok

/-- Running the retry loop when every attempt collides propagates the
conflict error raised at the final attempt. -/
theorem createOrderGo_run_conflicts (outcomes : Nat → InsertOutcome) :
    ∀ (fuel attempt : Nat) (le : Option DbError),
      attempt + fuel = ORDER_CODE_MAX_ATTEMPTS → 0 < fuel →
      (∀ i, attempt ≤ i → i < ORDER_CODE_MAX_ATTEMPTS →
        ∃ e, outcomes i = .err e ∧ isOrderCodeConflict e = true) →
      ∃ e, outcomes (ORDER_CODE_MAX_ATTEMPTS - 1) = .err e
        ∧ isOrderCodeConflict e = true
        ∧ createOrderGo outcomes attempt fuel le = .raisedDb e := by
  intro fuel
  induction fuel with
  | zero =>
    intro attempt le _ h0 _
    exact absurd h0 (by omega)
  | succ f ih =>
    intro attempt le hsum _ hconf
    obtain ⟨e, he, hce⟩ := hconf attempt (Nat.le_refl attempt)
      (by simp only [ORDER_CODE_MAX_ATTEMPTS] at hsum ⊢; omega)
    rcases Nat.eq_zero_or_pos f with hf | hf
    · subst hf
      have ha : attempt = ORDER_CODE_MAX_ATTEMPTS - 1 := by
        simp only [ORDER_CODE_MAX_ATTEMPTS] at hsum ⊢
        omega
      refine ⟨e, ha ▸ he, hce, ?_⟩
      refine createOrderGo_succ_stop outcomes attempt 0 le e he ?_
      rw [hce, Bool.true_and]
      simp only [decide_eq_false_iff_not]
      omega
    · obtain ⟨f2, rfl⟩ : ∃ f2, f = f2 + 1 := ⟨f - 1, by omega⟩
      obtain ⟨e2, he2, hce2, hrun⟩ := ih (attempt + 1) (some e) (by omega) hf
        (fun i hi hlt => hconf i (by omega) hlt)
      refine ⟨e2, he2, hce2, ?_⟩
      rw [createOrderGo_succ_conflict outcomes attempt (f2 + 1) le e he hce
        (by simp only [ORDER_CODE_MAX_ATTEMPTS] at hsum ⊢; omega)]
      exact hrun

/-- Running the retry loop into an error that is not an orderCode conflict
rethrows it at once. -/
theorem createOrderGo_run_other (outcomes : Nat → InsertOutcome) :
    ∀ (k attempt fuel : Nat) (le : Option DbError) (e : DbError),
      attempt + fuel = ORDER_CODE_MAX_ATTEMPTS →
      attempt + k < ORDER_CODE_MAX_ATTEMPTS →
      (∀ i, i < k → ∃ e2, outcomes (attempt + i) = .err e2 ∧ isOrderCodeConflict e2 = true) →
      outcomes (attempt + k) = .err e → isOrderCodeConflict e = false →
      createOrderGo outcomes attempt fuel le = .raisedDb e := by
  intro k
  induction k with
  | zero =>
    intro attempt fuel le e hsum hlt hconf herr hnc
    obtain ⟨f, rfl⟩ : ∃ f, fuel = f + 1 := ⟨fuel - 1, by omega⟩
    rw [Nat.add_zero] at herr
    refine createOrderGo_succ_stop outcomes attempt f le e herr ?_
    rw [hnc, Bool.false_and]
  | succ k ih =>
    intro attempt fuel le e hsum hlt hconf herr hnc
    obtain ⟨f, rfl⟩ : ∃ f, fuel = f + 1 := ⟨fuel - 1, by omega⟩
    obtain ⟨e2, he2, hce2⟩ := hconf 0 (Nat.succ_pos k)
    rw [Nat.add_zero] at he2
    have hlt4 : attempt < ORDER_CODE_MAX_ATTEMPTS - 1 := by
      simp only [ORDER_CODE_MAX_ATTEMPTS] at hlt ⊢
      omega
    rw [createOrderGo_succ_conflict outcomes attempt f le e2 he2 hce2 hlt4]
    refine ih (attempt + 1) f (some e2) e (by omega) (by omega) ?_ ?_ hnc
    · intro i hi
      have h2 : attempt + 1 + i = attempt + (i + 1) := by omega
      rw [h2]
      exact hconf (i + 1) (by omega)
    · have h3 : attempt + 1 + k = attempt + (k + 1) := by omega
      rw [h3]
      exact herr

/-- Counterexample to C4 as stated: five consecutive orderCode collisions do
make creation fail fatally, but the error surfaced is the underlying
uniqueness-violation error itself, not the unable-to-generate HttpError,
which is unreachable. -/
theorem createOrderWithRetry_counterexample :
    createOrderWithRetry (fun _ => .err conflictW) = .raisedDb conflictW
      ∧ createOrderWithRetry (fun _ => .err conflictW)
          ≠ .raisedHttp ⟨500, "Unable to generate a unique order code."⟩ := by
  have h1 : createOrderWithRetry (fun _ => .err conflictW) = .raisedDb conflictW := rfl
  refine ⟨h1, ?_⟩
  intro h
  rw [h1] at h
  exact RetryResult.noConfusion h

/-- C4 (amended): order creation retries on orderCode conflicts up to 5 total
attempts: k < 5 collisions followed by a successful insert succeed after
exactly k + 1 generation attempts; 5 consecutive collisions fail fatally by
propagating the final uniqueness-violation error itself (the
unable-to-generate HttpError in the source is unreachable); and any error
that is not an orderCode uniqueness violation is propagated immediately. -/
theorem createOrderWithRetry_spec :
    (∀ outcomes k o, k < ORDER_CODE_MAX_ATTEMPTS →
        (∀ i, i < k → ∃ e, outcomes i = .err e ∧ isOrderCodeConflict e = true) →
        outcomes k = .ok o →
        createOrderWithRetry outcomes = .ok (k + 1) o)
  ∧ (∀ outcomes,
        (∀ i, i < ORDER_CODE_MAX_ATTEMPTS →
          ∃ e, outcomes i = .err e ∧ isOrderCodeConflict e = true) →
        ∃ e, outcomes (ORDER_CODE_MAX_ATTEMPTS - 1) = .err e
          ∧ isOrderCodeConflict e = true
          ∧ createOrderWithRetry outcomes = .raisedDb e)
  ∧ (∀ outcomes k e, k < ORDER_CODE_MAX_ATTEMPTS →
        (∀ i, i < k → ∃ e2, outcomes i = .err e2 ∧ isOrderCodeConflict e2 = true) →
        outcomes k = .err e → isOrderCodeConflict e = false →
        createOrderWithRetry outcomes = .raisedDb e) := by
  refine ⟨?_, ?_, ?_⟩
  · intro outcomes k o hk hconf hok
    have h := createOrderGo_run_ok outcomes k 0 ORDER_CODE_MAX_ATTEMPTS none o
      (Nat.zero_add _) (by omega)
      (by intro i hi; rw [Nat.zero_add]; exact hconf i hi)
      (by rw [Nat.zero_add]; exact hok)
    rw [Nat.zero_add] at h
    exact h
  · intro outcomes hconf
    exact createOrderGo_run_conflicts outcomes ORDER_CODE_MAX_ATTEMPTS 0 none
      (Nat.zero_add _) (by simp [ORDER_CODE_MAX_ATTEMPTS])
      (fun i _ hlt => hconf i hlt)
  · intro outcomes k e hk hconf herr hnc
    exact createOrderGo_run_other outcomes k 0 ORDER_CODE_MAX_ATTEMPTS none e
      (Nat.zero_add _) (by omega)
      (by intro i hi; rw [Nat.zero_add]; exact hconf i hi)
      (by rw [Nat.zero_add]; exact herr) hnc

/-- Witness for C4: two collisions then a free code succeed on the third
attempt; a non-conflict error at the first attempt propagates at once. -/
theorem createOrderWithRetry_spec_witness :
    createOrderWithRetry outcomesW = .ok 3 pendingOrder
      ∧ createOrderWithRetry (fun _ => .err (.other "boom"))
          = .raisedDb (.other "boom") := by
  constructor
  · exact createOrderWithRetry_spec.1 outcomesW 2 pendingOrder (by decide)
      (by
        intro i hi
        exact ⟨conflictW, by simp [outcomesW, hi], rfl⟩)
      (by simp [outcomesW])
  · exact createOrderWithRetry_spec.2.2 (fun _ => .err (.other "boom")) 0 (.other "boom")
      (by decide) (by intro i hi; omega) rfl rfl

/-! ## C10: admin product deletion -/

/-- C10: deleting a product referenced by any order line is refused with a
conflict, leaving the whole database unchanged; a product referenced by no
order line and present in the catalog is deleted together with every cart
item referencing it, orders untouched; and a successful deletion only ever
happens when no order line references the product. -/
theorem deleteProduct_spec :
    (∀ db productId, orderLineCountFor db productId ≠ 0 →
        deleteProduct db productId = (db, .conflict))
  ∧ (∀ db productId, (deleteProduct db productId).2 = .deleted →
        orderLineCountFor db productId = 0)
  ∧ (∀ db productId, orderLineCountFor db productId = 0 →
        (db.products.find? fun p => p.id == productId).isSome →
        deleteProduct db productId =
          ({ products := db.products.filter fun p => !(p.id == productId)
             orders := db.orders
             cartItems := db.cartItems.filter fun it => !(it.productId == productId) },
           .deleted)) := by
  refine ⟨?_, ?_, ?_⟩
  · intro db productId h
    simp [deleteProduct, h]
  · intro db productId h
    by_contra hne
    simp [deleteProduct, hne] at h
  · intro db productId h hfind
    simp [deleteProduct, h, hfind]

/-- Witness for C10: product 1 appears in the pending order and cannot be
deleted; in a database whose only order references product 1 alone,
product 2 is deletable and its cart items go with it. -/
theorem deleteProduct_spec_witness :
    deleteProduct dbPending 1 = (dbPending, .conflict)
      ∧ deleteProduct ⟨[prodA, prodB], [pendingOrder], [⟨"bob", 2, 1⟩]⟩ 2 =
          (⟨[prodA], [pendingOrder], []⟩, .deleted) := by
  constructor
  · exact deleteProduct_spec.1 dbPending 1 (by decide)
  · have h := deleteProduct_spec.2.2 ⟨[prodA, prodB], [pendingOrder], [⟨"bob", 2, 1⟩]⟩ 2
      (by decide) (by decide)
    simpa using h

end EarthCo
